import Mathlib

/-!
# Astrolog bridging header: the Swiss Ephemeris constant tables

A verification development over `Astrolog-Bridging-Header.h`.  The header is
an include guard around one large block comment; the comment holds the
`#define` lines for the Swiss Ephemeris calculation flags, planet numbers,
house system codes, calendar types and `ascmc` indexes.  The definitions below
transcribe those lines one by one, with the values as they are written in the
header (for example `SEFLG_EQUATORIAL` is `2*1024`, not `2048`).
-/

namespace Astrolog

/-! ## Flags for `swe_calc()` and `swe_calc_ut()` (header lines 20-38) -/

/-- Header line 21: use JPL ephemeris. -/
def SEFLG_JPLEPH : Nat := 1
/-- Header line 22: use SWISSEPH ephemeris. -/
def SEFLG_SWIEPH : Nat := 2
/-- Header line 23: use Moshier ephemeris. -/
def SEFLG_MOSEPH : Nat := 4
/-- Header line 24: return heliocentric position. -/
def SEFLG_HELCTR : Nat := 8
/-- Header line 25: return true positions, not apparent. -/
def SEFLG_TRUEPOS : Nat := 16
/-- Header line 26: no precession, i.e. give J2000 equinox. -/
def SEFLG_J2000 : Nat := 32
/-- Header line 27: no nutation, i.e. mean equinox of date. -/
def SEFLG_NONUT : Nat := 64
/-- Header line 28: speed from 3 positions. -/
def SEFLG_SPEED3 : Nat := 128
/-- Header line 29: high precision speed. -/
def SEFLG_SPEED : Nat := 256
/-- Header line 30: turn off gravitational deflection. -/
def SEFLG_NOGDEFL : Nat := 512
/-- Header line 31: turn off annual aberration of light. -/
def SEFLG_NOABERR : Nat := 1024
/-- Header line 32: astrometric position, `(SEFLG_NOABERR|SEFLG_NOGDEFL)`. -/
def SEFLG_ASTROMETRIC : Nat := SEFLG_NOABERR ||| SEFLG_NOGDEFL
/-- Header line 33: equatorial positions are wanted, `(2*1024)`. -/
def SEFLG_EQUATORIAL : Nat := 2 * 1024
/-- Header line 34: cartesian, not polar, coordinates, `(4*1024)`. -/
def SEFLG_XYZ : Nat := 4 * 1024
/-- Header line 35: coordinates in radians, not degrees, `(8*1024)`. -/
def SEFLG_RADIANS : Nat := 8 * 1024
/-- Header line 36: barycentric positions, `(16*1024)`. -/
def SEFLG_BARYCTR : Nat := 16 * 1024
/-- Header line 37: topocentric positions, `(32*1024)`. -/
def SEFLG_TOPOCTR : Nat := 32 * 1024
/-- Header line 38: sidereal positions, `(64*1024)`. -/
def SEFLG_SIDEREAL : Nat := 64 * 1024

/-- The seventeen basic flag names of header lines 21-31 and 33-38, in the
order in which the header defines them.  `SEFLG_ASTROMETRIC` (line 32) is a
combination of two of them and is not a basic flag. -/
inductive BasicFlag where
  | JPLEPH | SWIEPH | MOSEPH | HELCTR | TRUEPOS | J2000 | NONUT | SPEED3
  | SPEED | NOGDEFL | NOABERR | EQUATORIAL | XYZ | RADIANS | BARYCTR
  | TOPOCTR | SIDEREAL
  deriving DecidableEq, Repr, Fintype

namespace BasicFlag

/-- The value the header gives to a basic flag name. -/
def value : BasicFlag → Nat
  | JPLEPH => SEFLG_JPLEPH
  | SWIEPH => SEFLG_SWIEPH
  | MOSEPH => SEFLG_MOSEPH
  | HELCTR => SEFLG_HELCTR
  | TRUEPOS => SEFLG_TRUEPOS
  | J2000 => SEFLG_J2000
  | NONUT => SEFLG_NONUT
  | SPEED3 => SEFLG_SPEED3
  | SPEED => SEFLG_SPEED
  | NOGDEFL => SEFLG_NOGDEFL
  | NOABERR => SEFLG_NOABERR
  | EQUATORIAL => SEFLG_EQUATORIAL
  | XYZ => SEFLG_XYZ
  | RADIANS => SEFLG_RADIANS
  | BARYCTR => SEFLG_BARYCTR
  | TOPOCTR => SEFLG_TOPOCTR
  | SIDEREAL => SEFLG_SIDEREAL

/-- The basic flags in header order. -/
def all : List BasicFlag :=
  [JPLEPH, SWIEPH, MOSEPH, HELCTR, TRUEPOS, J2000, NONUT, SPEED3, SPEED,
   NOGDEFL, NOABERR, EQUATORIAL, XYZ, RADIANS, BARYCTR, TOPOCTR, SIDEREAL]

/-- Position of a basic flag in header order, counted from zero. -/
def position (f : BasicFlag) : Nat := all.indexOf f

end BasicFlag

/-- The values of the seventeen basic flags in header order. -/
def basicFlagValues : List Nat := BasicFlag.all.map BasicFlag.value

/-- The C expression `a | b | ...` over a set of basic flags: the bitwise OR
of the values of its members, `0` for the empty set. -/
def orOf (A : Finset BasicFlag) : Nat :=
  A.fold (· ||| ·) 0 BasicFlag.value

/-- The C test `(mask & flag) != 0`. -/
def isSet (mask flag : Nat) : Bool := mask &&& flag != 0

/-! ## Planet numbers for `swe_calc()` (header lines 40-57) -/

/-- Header line 41. -/
def SE_ECL_NUT : Int := -1
/-- Header line 42. -/
def SE_SUN : Int := 0
/-- Header line 43. -/
def SE_MOON : Int := 1
/-- Header line 44. -/
def SE_MERCURY : Int := 2
/-- Header line 45. -/
def SE_VENUS : Int := 3
/-- Header line 46. -/
def SE_MARS : Int := 4
/-- Header line 47. -/
def SE_JUPITER : Int := 5
/-- Header line 48. -/
def SE_SATURN : Int := 6
/-- Header line 49. -/
def SE_URANUS : Int := 7
/-- Header line 50. -/
def SE_NEPTUNE : Int := 8
/-- Header line 51. -/
def SE_PLUTO : Int := 9
/-- Header line 52. -/
def SE_MEAN_NODE : Int := 10
/-- Header line 53. -/
def SE_TRUE_NODE : Int := 11
/-- Header line 54. -/
def SE_MEAN_APOG : Int := 12
/-- Header line 55. -/
def SE_OSCU_APOG : Int := 13
/-- Header line 56. -/
def SE_EARTH : Int := 14
/-- Header line 57. -/
def SE_CHIRON : Int := 15

/-- The celestial bodies the header names, one per `#define` of lines 41-57. -/
inductive CelestialBody where
  | EclNut | Sun | Moon | Mercury | Venus | Mars | Jupiter | Saturn | Uranus
  | Neptune | Pluto | MeanNode | TrueNode | MeanApog | OscuApog | Earth | Chiron
  deriving DecidableEq, Repr, Fintype

namespace CelestialBody

/-- The planet number the header gives to a body. -/
def number : CelestialBody → Int
  | EclNut => SE_ECL_NUT
  | Sun => SE_SUN
  | Moon => SE_MOON
  | Mercury => SE_MERCURY
  | Venus => SE_VENUS
  | Mars => SE_MARS
  | Jupiter => SE_JUPITER
  | Saturn => SE_SATURN
  | Uranus => SE_URANUS
  | Neptune => SE_NEPTUNE
  | Pluto => SE_PLUTO
  | MeanNode => SE_MEAN_NODE
  | TrueNode => SE_TRUE_NODE
  | MeanApog => SE_MEAN_APOG
  | OscuApog => SE_OSCU_APOG
  | Earth => SE_EARTH
  | Chiron => SE_CHIRON

/-- The bodies in header order. -/
def all : List CelestialBody :=
  [EclNut, Sun, Moon, Mercury, Venus, Mars, Jupiter, Saturn, Uranus, Neptune,
   Pluto, MeanNode, TrueNode, MeanApog, OscuApog, Earth, Chiron]

end CelestialBody

/-! ## House system codes (header lines 59-67) -/

/-- Header line 60. -/
def SE_HS_PLACIDUS : Char := 'P'
/-- Header line 61. -/
def SE_HS_KOCH : Char := 'K'
/-- Header line 62. -/
def SE_HS_PORPHYRIUS : Char := 'O'
/-- Header line 63. -/
def SE_HS_REGIOMONTANUS : Char := 'R'
/-- Header line 64. -/
def SE_HS_CAMPANUS : Char := 'C'
/-- Header line 65. -/
def SE_HS_EQUAL : Char := 'A'
/-- Header line 66. -/
def SE_HS_VEHLOW : Char := 'V'
/-- Header line 67. -/
def SE_HS_WHOLE_SIGN : Char := 'W'

/-- The house systems the header names, one per `#define` of lines 60-67. -/
inductive HouseSystem where
  | Placidus | Koch | Porphyrius | Regiomontanus | Campanus | Equal | Vehlow
  | WholeSign
  deriving DecidableEq, Repr, Fintype

namespace HouseSystem

/-- The character code the header gives to a house system. -/
def code : HouseSystem → Char
  | Placidus => SE_HS_PLACIDUS
  | Koch => SE_HS_KOCH
  | Porphyrius => SE_HS_PORPHYRIUS
  | Regiomontanus => SE_HS_REGIOMONTANUS
  | Campanus => SE_HS_CAMPANUS
  | Equal => SE_HS_EQUAL
  | Vehlow => SE_HS_VEHLOW
  | WholeSign => SE_HS_WHOLE_SIGN

/-- The house systems in header order. -/
def all : List HouseSystem :=
  [Placidus, Koch, Porphyrius, Regiomontanus, Campanus, Equal, Vehlow, WholeSign]

/-- Decoding of a character code: the first house system of the header, in
header order, whose code is the character; none when no code matches. -/
def ofCode (c : Char) : Option HouseSystem :=
  all.find? fun h => h.code == c

end HouseSystem

/-! ## Calendar types (header lines 69-71) -/

/-- Header line 70. -/
def SE_JUL_CAL : Int := 0
/-- Header line 71. -/
def SE_GREG_CAL : Int := 1

/-! ## Indexes for the `ascmc` array (header lines 73-81) -/

/-- Header line 74. -/
def SE_ASC : Nat := 0
/-- Header line 75. -/
def SE_MC : Nat := 1
/-- Header line 76. -/
def SE_ARMC : Nat := 2
/-- Header line 77. -/
def SE_VERTEX : Nat := 3
/-- Header line 78. -/
def SE_EQUASC : Nat := 4
/-- Header line 79. -/
def SE_COASC1 : Nat := 5
/-- Header line 80. -/
def SE_COASC2 : Nat := 6
/-- Header line 81. -/
def SE_POLASC : Nat := 7

/-- The named angular points of a house result, one per `#define` of header
lines 74-81. -/
inductive AngularPoint where
  | Asc | MC | Armc | Vertex | EquAsc | CoAsc1 | CoAsc2 | PolAsc
  deriving DecidableEq, Repr, Fintype

namespace AngularPoint

/-- The `ascmc` index the header gives to an angular point. -/
def index : AngularPoint → Nat
  | Asc => SE_ASC
  | MC => SE_MC
  | Armc => SE_ARMC
  | Vertex => SE_VERTEX
  | EquAsc => SE_EQUASC
  | CoAsc1 => SE_COASC1
  | CoAsc2 => SE_COASC2
  | PolAsc => SE_POLASC

/-- The angular points in header order. -/
def all : List AngularPoint :=
  [Asc, MC, Armc, Vertex, EquAsc, CoAsc1, CoAsc2, PolAsc]

end AngularPoint

/-! ## The text of the header and its preprocessing -/

/-- The text of `Astrolog-Bridging-Header.h`, line by line: 87 lines, the last
one without a newline after it. -/
def headerLines : List String := [
  "//",
  "//  Astrolog-Bridging-Header.h",
  "//  Astrolog",
  "//",
  "//  Bridging header for integrating C libraries with Swift",
  "//",
  "",
  "#ifndef Astrolog_Bridging_Header_h",
  "#define Astrolog_Bridging_Header_h",
  "",
  "// MARK: - Swiss Ephemeris Integration",
  "// Uncomment when Swiss Ephemeris C library is added to project",
  "",
  "/*",
  "#import \"swephexp.h\"",
  "",
  "// Swiss Ephemeris Constants",
  "// These will be available in Swift after bridging",
  "",
  "// Flags for swe_calc() and swe_calc_ut()",
  "#define SEFLG_JPLEPH    1       // use JPL ephemeris",
  "#define SEFLG_SWIEPH    2       // use SWISSEPH ephemeris",
  "#define SEFLG_MOSEPH    4       // use Moshier ephemeris",
  "#define SEFLG_HELCTR    8       // return heliocentric position",
  "#define SEFLG_TRUEPOS   16      // return true positions, not apparent",
  "#define SEFLG_J2000     32      // no precession, i.e. give J2000 equinox",
  "#define SEFLG_NONUT     64      // no nutation, i.e. mean equinox of date",
  "#define SEFLG_SPEED3    128     // speed from 3 positions (do not use it, SEFLG_SPEED is faster and more precise.)",
  "#define SEFLG_SPEED     256     // high precision speed",
  "#define SEFLG_NOGDEFL   512     // turn off gravitational deflection",
  "#define SEFLG_NOABERR   1024    // turn off 'annual' aberration of light",
  "#define SEFLG_ASTROMETRIC (SEFLG_NOABERR|SEFLG_NOGDEFL) // astrometric position",
  "#define SEFLG_EQUATORIAL (2*1024)   // equatorial positions are wanted",
  "#define SEFLG_XYZ       (4*1024)    // cartesian, not polar, coordinates",
  "#define SEFLG_RADIANS   (8*1024)    // coordinates in radians, not degrees",
  "#define SEFLG_BARYCTR   (16*1024)   // barycentric positions",
  "#define SEFLG_TOPOCTR   (32*1024)   // topocentric positions",
  "#define SEFLG_SIDEREAL  (64*1024)   // sidereal positions",
  "",
  "// Planet numbers for swe_calc()",
  "#define SE_ECL_NUT      -1",
  "#define SE_SUN          0",
  "#define SE_MOON         1",
  "#define SE_MERCURY      2",
  "#define SE_VENUS        3",
  "#define SE_MARS         4",
  "#define SE_JUPITER      5",
  "#define SE_SATURN       6",
  "#define SE_URANUS       7",
  "#define SE_NEPTUNE      8",
  "#define SE_PLUTO        9",
  "#define SE_MEAN_NODE    10",
  "#define SE_TRUE_NODE    11",
  "#define SE_MEAN_APOG    12",
  "#define SE_OSCU_APOG    13",
  "#define SE_EARTH        14",
  "#define SE_CHIRON       15",
  "",
  "// House system codes",
  "#define SE_HS_PLACIDUS      'P'",
  "#define SE_HS_KOCH          'K'",
  "#define SE_HS_PORPHYRIUS    'O'",
  "#define SE_HS_REGIOMONTANUS 'R'",
  "#define SE_HS_CAMPANUS      'C'",
  "#define SE_HS_EQUAL         'A'",
  "#define SE_HS_VEHLOW        'V'",
  "#define SE_HS_WHOLE_SIGN    'W'",
  "",
  "// Calendar types",
  "#define SE_JUL_CAL  0",
  "#define SE_GREG_CAL 1",
  "",
  "// Indexes for ascmc array",
  "#define SE_ASC      0",
  "#define SE_MC       1",
  "#define SE_ARMC     2",
  "#define SE_VERTEX   3",
  "#define SE_EQUASC   4",
  "#define SE_COASC1   5",
  "#define SE_COASC2   6",
  "#define SE_POLASC   7",
  "*/",
  "",
  "// MARK: - Other C Libraries",
  "// Add imports for other C libraries here if needed",
  "",
  "#endif /* Astrolog_Bridging_Header_h */"
]

/-- The characters of the header file: its lines joined by newlines. -/
def headerText : List Char :=
  List.intercalate ['\n'] (headerLines.map String.toList)

/-- State of the comment scanner (C translation phase 3).  `slash` is code
after a `/` that may open a comment, `star` is a block comment after a `*`
that may close it, `strEsc` and `chrEsc` follow a backslash in a literal. -/
inductive Lex where
  | code | slash | line | block | star | str | strEsc | chr | chrEsc
  deriving DecidableEq, Repr

/-- What the scanner has produced so far: the text with each comment replaced
by one space (kept in reverse), the current line number, the line on which the
open block comment started, and the `(first line, last line)` pairs of the
block comments closed so far (latest first). -/
structure Scan where
  lex : Lex
  lineNo : Nat
  out : List Char
  blockStart : Nat
  blocks : List (Nat × Nat)
  deriving Repr

/-- The scanner before the first character of a file. -/
def Scan.init : Scan :=
  { lex := Lex.code, lineNo := 1, out := [], blockStart := 0, blocks := [] }

/-- Append the characters `cs` to the output and move to state `l`. -/
def Scan.emit (s : Scan) (l : Lex) (cs : List Char) : Scan :=
  { s with lex := l, out := cs.reverse ++ s.out }

/-- State after a character `c` of plain code has been read. -/
def afterCode (c : Char) : Lex :=
  if c = '/' then Lex.slash
  else if c = '"' then Lex.str
  else if c = '\x27' then Lex.chr
  else Lex.code

/-- One character of comment scanning.  A `//` comment runs to the end of the
line and a `/* */` comment to the first `*/`; each is replaced by one space.
Comment openers inside string and character literals do not count, and
nothing inside a comment does. -/
def Scan.step (s : Scan) (c : Char) : Scan :=
  let s1 : Scan := if c = '\n' then { s with lineNo := s.lineNo + 1 } else s
  match s.lex with
  | Lex.code =>
      if c = '/' then { s1 with lex := Lex.slash } else s1.emit (afterCode c) [c]
  | Lex.slash =>
      if c = '/' then s1.emit Lex.line [' ']
      else if c = '*' then { s1.emit Lex.block [' '] with blockStart := s.lineNo }
      else s1.emit (afterCode c) ['/', c]
  | Lex.line =>
      if c = '\n' then s1.emit Lex.code [c] else s1
  | Lex.block =>
      if c = '*' then { s1 with lex := Lex.star } else s1
  | Lex.star =>
      if c = '/' then
        { s1 with lex := Lex.code, blocks := (s.blockStart, s.lineNo) :: s.blocks }
      else if c = '*' then s1
      else { s1 with lex := Lex.block }
  | Lex.str =>
      if c = '\\' then s1.emit Lex.strEsc [c]
      else if c = '"' then s1.emit Lex.code [c]
      else s1.emit Lex.str [c]
  | Lex.strEsc => s1.emit Lex.str [c]
  | Lex.chr =>
      if c = '\\' then s1.emit Lex.chrEsc [c]
      else if c = '\x27' then s1.emit Lex.code [c]
      else s1.emit Lex.chr [c]
  | Lex.chrEsc => s1.emit Lex.chr [c]

/-- Scan a whole text. -/
def scan (text : List Char) : Scan :=
  let s := text.foldl Scan.step Scan.init
  if s.lex = Lex.slash then s.emit Lex.code ['/'] else s

/-- The text after comment removal. -/
def stripComments (text : List Char) : List Char := (scan text).out.reverse

/-- The block comments of a text as `(first line, last line)`, in order. -/
def blockComments (text : List Char) : List (Nat × Nat) := (scan text).blocks.reverse

/-- Split a text into lines at the newline characters. -/
def splitLines : List Char → List (List Char)
  | [] => [[]]
  | c :: cs =>
      match splitLines cs with
      | [] => [[c]]
      | l :: ls => if c = '\n' then [] :: l :: ls else (c :: l) :: ls

/-- Split a line into its blank-separated words. -/
def splitWords : List Char → List (List Char)
  | [] => []
  | c :: cs =>
      if c = ' ' ∨ c = '\t' then [] :: splitWords cs
      else
        match splitWords cs with
        | [] => [[c]]
        | w :: ws => (c :: w) :: ws

/-- The non-empty words of a line. -/
def wordsOf (l : List Char) : List String :=
  ((splitWords l).filter fun w => !w.isEmpty).map String.mk

/-- A preprocessing directive is a line whose first word starts with `#`. -/
def isDirective (ws : List String) : Bool :=
  match ws with
  | [] => false
  | w :: _ => w.toList.head? == some '#'

/-- The lines of a text after comment removal, each as its list of words. -/
def logicalLines (text : List Char) : List (List String) :=
  (splitLines (stripComments text)).map wordsOf

/-- The preprocessing directives left in a text after comment removal. -/
def directives (text : List Char) : List (List String) :=
  (logicalLines text).filter isDirective

/-- The lines left after comment removal that are neither blank nor a
directive: the declarations a file offers to the file that includes it. -/
def declarations (text : List Char) : List (List String) :=
  (logicalLines text).filter fun ws => !ws.isEmpty && !isDirective ws

/-- The macros a text defines as `(name, replacement words)`. -/
def definedMacros (text : List Char) : List (String × List String) :=
  (directives text).filterMap fun ws =>
    match ws with
    | d :: name :: body => if d = "#define" then some (name, body) else none
    | _ => none

/-- Does a raw line start with the given characters? -/
def startsWithChars (l : String) (p : String) : Bool := p.toList.isPrefixOf l.toList

/-- The 1-based numbers of the raw header lines that define an `SEFLG_` or
`SE_` name or import a file. -/
def constantLineNumbers : List Nat :=
  (headerLines.enum.filter fun p =>
    startsWithChars p.2 "#define SE" || startsWithChars p.2 "#import").map fun p => p.1 + 1

/-! ## The engine of spec sections 3, 4.1, 4.4, 6 and 7

The header names constants only.  The operations below are the ones the spec
describes around those constants. -/

/-- Modelled from the spec: the error kinds of section 7, which the header
does not declare. -/
inductive EngineError where
  | InvalidDate | UnsupportedBody | OutOfRange | PolarSingularity
  | InvalidFlagCombination
  deriving DecidableEq, Repr

/-! ## Calculation flags as a structured configuration (spec sections 3, 6, 7) -/

/-- Modelled from the spec: the ephemeris precision tier option of section 3,
one tier for each ephemeris the header names on lines 21-23.  The header has
no such type. -/
inductive EphemerisTier where
  | Jpl | Swiss | Moshier
  deriving DecidableEq, Repr, Fintype

/-- Modelled from the spec: the heliocentric vs geocentric option of
section 3. -/
inductive Center where
  | Geocentric | Heliocentric
  deriving DecidableEq, Repr, Fintype

/-- Modelled from the spec: the reference frame option of section 3,
barycentric or topocentric. -/
inductive Reference where
  | Barycentric | Topocentric
  deriving DecidableEq, Repr, Fintype

/-- Modelled from the spec: the options of a CalculationFlags of section 3 as
a structured record, one enumerated or boolean field per option: at most one
precision tier, the centre, at most one reference frame, and one boolean for
each remaining option the header names. -/
structure FlagOptions where
  tier : Option EphemerisTier
  center : Center
  reference : Option Reference
  truePosition : Bool
  j2000 : Bool
  noNutation : Bool
  speed3 : Bool
  speed : Bool
  noGravDeflection : Bool
  noAberration : Bool
  equatorial : Bool
  cartesian : Bool
  radians : Bool
  sidereal : Bool
  deriving DecidableEq, Repr

namespace FlagOptions

/-- Modelled from the spec: the mutually exclusive options of section 3 that
a record can still hold: a heliocentric centre together with a barycentric or
topocentric reference frame. -/
def exclusive (o : FlagOptions) : Bool :=
  o.center == Center.Heliocentric && o.reference.isSome

/-- Modelled from the spec: whether a record selects the option that a basic
flag of the header names (section 6, the flag encoding mirrors the
options). -/
def selects (o : FlagOptions) : BasicFlag → Bool
  | BasicFlag.JPLEPH => o.tier == some EphemerisTier.Jpl
  | BasicFlag.SWIEPH => o.tier == some EphemerisTier.Swiss
  | BasicFlag.MOSEPH => o.tier == some EphemerisTier.Moshier
  | BasicFlag.HELCTR => o.center == Center.Heliocentric
  | BasicFlag.TRUEPOS => o.truePosition
  | BasicFlag.J2000 => o.j2000
  | BasicFlag.NONUT => o.noNutation
  | BasicFlag.SPEED3 => o.speed3
  | BasicFlag.SPEED => o.speed
  | BasicFlag.NOGDEFL => o.noGravDeflection
  | BasicFlag.NOABERR => o.noAberration
  | BasicFlag.EQUATORIAL => o.equatorial
  | BasicFlag.XYZ => o.cartesian
  | BasicFlag.RADIANS => o.radians
  | BasicFlag.BARYCTR => o.reference == some Reference.Barycentric
  | BasicFlag.TOPOCTR => o.reference == some Reference.Topocentric
  | BasicFlag.SIDEREAL => o.sidereal

end FlagOptions

/-- Modelled from the spec: the CalculationFlags of section 3, a structured
configuration object that carries its invariant: the options hold no mutually
exclusive combination.  The header has no such type. -/
structure CalculationFlags where
  options : FlagOptions
  valid : options.exclusive = false

namespace CalculationFlags

/-- Modelled from the spec: construction of a CalculationFlags from a record
of options (section 3): a record with mutually exclusive options is rejected
with `InvalidFlagCombination` (section 7), any other record is kept as it
is. -/
def make (o : FlagOptions) : Except EngineError CalculationFlags :=
  if h : o.exclusive = false then Except.ok { options := o, valid := h }
  else Except.error EngineError.InvalidFlagCombination

/-- Modelled from the spec: whether a CalculationFlags selects the option
that a basic flag of the header names (section 6). -/
def selects (cf : CalculationFlags) (f : BasicFlag) : Bool := cf.options.selects f

/-- Modelled from the spec: the flag encoding of a CalculationFlags
(section 6): the OR of the header's basic flags whose options it selects. -/
def toMask (cf : CalculationFlags) : Nat :=
  orOf (Finset.univ.filter fun f : BasicFlag => cf.selects f = true)

end CalculationFlags

/-- Modelled from the spec: the precision tier asked for by a set of requested
options, each named by its basic flag; asking for more than one tier is an
invalid combination (sections 3 and 7). -/
def tierOfFlags (A : Finset BasicFlag) : Except EngineError (Option EphemerisTier) :=
  match decide (BasicFlag.JPLEPH ∈ A), decide (BasicFlag.SWIEPH ∈ A),
      decide (BasicFlag.MOSEPH ∈ A) with
  | false, false, false => Except.ok none
  | true, false, false => Except.ok (some EphemerisTier.Jpl)
  | false, true, false => Except.ok (some EphemerisTier.Swiss)
  | false, false, true => Except.ok (some EphemerisTier.Moshier)
  | _, _, _ => Except.error EngineError.InvalidFlagCombination

/-- Modelled from the spec: the reference frame asked for by a set of
requested options; asking for both barycentric and topocentric is an invalid
combination (sections 3 and 7). -/
def referenceOfFlags (A : Finset BasicFlag) : Except EngineError (Option Reference) :=
  match decide (BasicFlag.BARYCTR ∈ A), decide (BasicFlag.TOPOCTR ∈ A) with
  | false, false => Except.ok none
  | true, false => Except.ok (some Reference.Barycentric)
  | false, true => Except.ok (some Reference.Topocentric)
  | true, true => Except.error EngineError.InvalidFlagCombination

/-- Modelled from the spec: whether a set of requested options holds a
mutually exclusive combination (section 3): more than one precision tier, both
reference frames, or heliocentric together with a reference frame. -/
def conflicting (A : Finset BasicFlag) : Bool :=
  (decide (BasicFlag.JPLEPH ∈ A) && decide (BasicFlag.SWIEPH ∈ A))
  || (decide (BasicFlag.JPLEPH ∈ A) && decide (BasicFlag.MOSEPH ∈ A))
  || (decide (BasicFlag.SWIEPH ∈ A) && decide (BasicFlag.MOSEPH ∈ A))
  || (decide (BasicFlag.BARYCTR ∈ A) && decide (BasicFlag.TOPOCTR ∈ A))
  || (decide (BasicFlag.HELCTR ∈ A) && decide (BasicFlag.BARYCTR ∈ A))
  || (decide (BasicFlag.HELCTR ∈ A) && decide (BasicFlag.TOPOCTR ∈ A))

/-- Modelled from the spec: construction of a CalculationFlags from the set
of options a caller asks for, each named by its basic flag (sections 3, 6 and
7).  The request is turned into the structured record field by field and then
checked by `CalculationFlags.make`; a request that cannot be a valid record
fails with `InvalidFlagCombination`. -/
def CalculationFlags.ofFlags (A : Finset BasicFlag) : Except EngineError CalculationFlags :=
  match tierOfFlags A, referenceOfFlags A with
  | Except.ok t, Except.ok r =>
      CalculationFlags.make
        { tier := t
          center := if BasicFlag.HELCTR ∈ A then Center.Heliocentric else Center.Geocentric
          reference := r
          truePosition := decide (BasicFlag.TRUEPOS ∈ A)
          j2000 := decide (BasicFlag.J2000 ∈ A)
          noNutation := decide (BasicFlag.NONUT ∈ A)
          speed3 := decide (BasicFlag.SPEED3 ∈ A)
          speed := decide (BasicFlag.SPEED ∈ A)
          noGravDeflection := decide (BasicFlag.NOGDEFL ∈ A)
          noAberration := decide (BasicFlag.NOABERR ∈ A)
          equatorial := decide (BasicFlag.EQUATORIAL ∈ A)
          cartesian := decide (BasicFlag.XYZ ∈ A)
          radians := decide (BasicFlag.RADIANS ∈ A)
          sidereal := decide (BasicFlag.SIDEREAL ∈ A) }
  | _, _ => Except.error EngineError.InvalidFlagCombination

/-- The two calendar kinds the header names on lines 70-71. -/
inductive CalendarKind where
  | Julian | Gregorian
  deriving DecidableEq, Repr, Fintype

/-- The calendar type code the header gives to a calendar kind. -/
def CalendarKind.code : CalendarKind → Int
  | Julian => SE_JUL_CAL
  | Gregorian => SE_GREG_CAL

/-- Modelled from the spec: the Timestamp of section 3, a civil date and time
of day with its UTC offset (the calendar kind is passed to `normalize`
separately, as in the contract of section 4.1).  The header has no such
type. -/
structure CivilTimestamp where
  year : Int
  month : Nat
  day : Nat
  secondOfDay : Rat
  utcOffset : Rat
  deriving Repr

/-- Modelled from the spec: leap years under a calendar kind, needed to say
which civil dates exist (section 4.1); every fourth year in the Julian
calendar, and in the Gregorian calendar every fourth year except the
centuries not divisible by 400. -/
def isLeapYear (k : CalendarKind) (y : Int) : Bool :=
  match k with
  | CalendarKind.Julian => y % 4 == 0
  | CalendarKind.Gregorian => y % 4 == 0 && (y % 100 != 0 || y % 400 == 0)

/-- Modelled from the spec: the number of days of a month under a calendar
kind (section 4.1), `0` for a month number outside 1 to 12. -/
def daysInMonth (k : CalendarKind) (y : Int) (m : Nat) : Nat :=
  if m = 2 then (if isLeapYear k y then 29 else 28)
  else if m = 4 ∨ m = 6 ∨ m = 9 ∨ m = 11 then 30
  else if 1 ≤ m ∧ m ≤ 12 then 31
  else 0

/-- Modelled from the spec: the Julian/Gregorian transition gap of section
4.1, the ten dates from 5 to 14 October 1582 that the Gregorian calendar
skipped. -/
def inTransitionGap (k : CalendarKind) (y : Int) (m d : Nat) : Bool :=
  k == CalendarKind.Gregorian && y == 1582 && m == 10 && decide (5 ≤ d) && decide (d ≤ 14)

/-- Modelled from the spec: whether a civil date exists under a calendar kind
(section 4.1): the month is 1 to 12, the day is 1 to the length of the month,
and the date is not in the transition gap. -/
def dateExists (k : CalendarKind) (y : Int) (m d : Nat) : Bool :=
  decide (1 ≤ m) && decide (m ≤ 12) && decide (1 ≤ d) && decide (d ≤ daysInMonth k y m)
    && !inTransitionGap k y m d

/-- Modelled from the spec: `normalize(civilTimestamp, calendarKind)` of
section 4.1, which the repository source does not contain.  It fails with
`InvalidDate` when the civil date does not exist under the calendar kind and
otherwise returns the astronomical time; the numeric conversion to the
astronomical time scale, on which the spec fixes nothing, is the parameter
`toAstronomical`. -/
def normalize (toAstronomical : CivilTimestamp → CalendarKind → Rat)
    (ts : CivilTimestamp) (k : CalendarKind) : Except EngineError Rat :=
  if dateExists k ts.year ts.month ts.day then Except.ok (toAstronomical ts k)
  else Except.error EngineError.InvalidDate

/-- Modelled from the spec: the GeoLocation of section 3. -/
structure GeoLocation where
  latitude : Rat
  longitude : Rat
  altitude : Option Rat
  deriving Repr

/-- Modelled from the spec: the HouseCusps of section 3, the ordered sequence
of cusp longitudes and the longitudes of the named angular points, in
degrees. -/
structure HouseCusps where
  cusps : List Rat
  ascmc : AngularPoint → Rat

/-- Modelled from the spec: a longitude in degrees taken modulo 360 into the
range from 0 up to, not including, 360 (section 3, cusps are defined modulo
360 degrees). -/
def wrap360 (x : Rat) : Rat := x - 360 * ⌊x / 360⌋

/-- Modelled from the spec: the Whole-Sign strategy of sections 4.4 and 8:
twelve cusps 30 degrees apart, starting at the boundary of the 30-degree sign
that contains the Ascendant. -/
def wholeSignCusps (asc : Rat) : List Rat :=
  (List.range 12).map fun i : Nat => wrap360 (30 * (⌊asc / 30⌋ : Rat) + 30 * (i : Rat))

/-- Modelled from the spec: the parts of the House System Calculator of
section 4.4 on which the spec fixes no formula: the shared first step that
computes the angular points from time and place, the latitude thresholds of
Placidus and Koch, which are undefined near the poles, and the cusp strategies
of the systems other than Whole-Sign. -/
structure HouseModel where
  angles : Rat → GeoLocation → AngularPoint → Rat
  placidusLimit : Rat
  kochLimit : Rat
  otherCusps : HouseSystem → (AngularPoint → Rat) → GeoLocation → List Rat

/-- Modelled from the spec: `computeHouses(astronomicalTime, location,
houseSystem)` of section 4.4, which the repository source does not contain.
All systems first compute the angular points; Placidus and Koch fail with
`PolarSingularity` when the latitude is at or beyond their threshold; the
cusps come from the strategy the house system selects. -/
def computeHouses (M : HouseModel) (t : Rat) (loc : GeoLocation) (sys : HouseSystem) :
    Except EngineError HouseCusps :=
  let pts : AngularPoint → Rat := fun p => wrap360 (M.angles t loc p)
  match sys with
  | HouseSystem.WholeSign =>
      Except.ok { cusps := wholeSignCusps (pts AngularPoint.Asc), ascmc := pts }
  | HouseSystem.Placidus =>
      if M.placidusLimit ≤ |loc.latitude| then Except.error EngineError.PolarSingularity
      else Except.ok { cusps := M.otherCusps sys pts loc, ascmc := pts }
  | HouseSystem.Koch =>
      if M.kochLimit ≤ |loc.latitude| then Except.error EngineError.PolarSingularity
      else Except.ok { cusps := M.otherCusps sys pts loc, ascmc := pts }
  | _ => Except.ok { cusps := M.otherCusps sys pts loc, ascmc := pts }

/-- A house model for a worked example: the Ascendant stands at 95 degrees. -/
def sampleModel : HouseModel :=
  { angles := fun _ _ _ => 95, placidusLimit := 66, kochLimit := 66,
    otherCusps := fun _ _ _ => [] }

/-- A place for a worked example. -/
def sampleLocation : GeoLocation :=
  { latitude := 52, longitude := 13, altitude := none }

/-- The Whole-Sign result of the worked example. -/
def sampleCusps : HouseCusps :=
  { cusps := wholeSignCusps (wrap360 95), ascmc := fun _ => wrap360 95 }

end Astrolog

/-! # Theorems -/

namespace Astrolog

/-! ## Bit-level facts about the basic flags -/

theorem BasicFlag.value_eq_two_pow (f : BasicFlag) : f.value = 2 ^ f.position := by
  cases f <;> rfl

theorem BasicFlag.position_lt (f : BasicFlag) : f.position < 17 := by
  cases f <;> decide

theorem BasicFlag.position_injective (f g : BasicFlag) (h : f.position = g.position) :
    f = g := by
  revert f g
  decide

theorem BasicFlag.exists_position (j : Nat) (hj : j < 17) :
    ∃ f : BasicFlag, f.position = j := by
  revert j
  decide

theorem orOf_empty : orOf ∅ = 0 := rfl

theorem orOf_insert {f : BasicFlag} {A : Finset BasicFlag} (h : f ∉ A) :
    orOf (insert f A) = f.value ||| orOf A := by
  unfold orOf
  rw [Finset.fold_insert h]

/-- Bit `j` of the OR of a set of basic flags is set exactly when the set
holds the flag defined at position `j`. -/
theorem testBit_orOf (A : Finset BasicFlag) (j : Nat) :
    (orOf A).testBit j = true ↔ ∃ f ∈ A, f.position = j := by
  induction A using Finset.induction_on with
  | empty => simp [orOf_empty]
  | insert h ih =>
    rw [orOf_insert h, Nat.testBit_or, Bool.or_eq_true, ih,
      BasicFlag.value_eq_two_pow, Nat.testBit_two_pow]
    simp

theorem and_two_pow_ne_zero (m k : Nat) : m &&& 2 ^ k ≠ 0 ↔ m.testBit k = true := by
  rw [Nat.and_two_pow]
  cases m.testBit k <;> simp

theorem and_two_pow_ne_zero_iff_of_eq (m : Nat) {x k : Nat} (hx : x = 2 ^ k) :
    m &&& x ≠ 0 ↔ m.testBit k = true := by
  rw [hx]
  exact and_two_pow_ne_zero m k

theorem orOf_and_value_ne_zero (A : Finset BasicFlag) (f : BasicFlag) :
    orOf A &&& f.value ≠ 0 ↔ f ∈ A := by
  rw [BasicFlag.value_eq_two_pow, and_two_pow_ne_zero, testBit_orOf]
  constructor
  · rintro ⟨g, hg, hgf⟩
    rwa [← BasicFlag.position_injective g f hgf]
  · intro h
    exact ⟨f, h, rfl⟩

theorem orOf_injective {A B : Finset BasicFlag} (h : orOf A = orOf B) : A = B := by
  ext f
  rw [← orOf_and_value_ne_zero A f, ← orOf_and_value_ne_zero B f, h]

theorem orOf_lt (A : Finset BasicFlag) : orOf A < 2 ^ 17 := by
  apply Nat.lt_pow_two_of_testBit
  intro j hj
  by_contra hne
  rw [Bool.not_eq_false, testBit_orOf] at hne
  obtain ⟨f, -, hf⟩ := hne
  have := f.position_lt
  omega

theorem orOf_filter_isSet (n : Nat) (hn : n < 2 ^ 17) :
    orOf (Finset.univ.filter fun f : BasicFlag => isSet n f.value = true) = n := by
  apply Nat.eq_of_testBit_eq
  intro j
  rw [Bool.eq_iff_iff, testBit_orOf]
  constructor
  · rintro ⟨f, hf, rfl⟩
    have hf2 := (Finset.mem_filter.mp hf).2
    simp only [isSet, bne_iff_ne] at hf2
    rwa [BasicFlag.value_eq_two_pow, and_two_pow_ne_zero] at hf2
  · intro hj
    have hlt : j < 17 := by
      by_contra hge
      have h1 : n < 2 ^ j :=
        lt_of_lt_of_le hn (Nat.pow_le_pow_right (by norm_num) (by omega))
      rw [Nat.testBit_lt_two_pow h1] at hj
      exact Bool.false_ne_true hj
    obtain ⟨f, rfl⟩ := BasicFlag.exists_position j hlt
    refine ⟨f, Finset.mem_filter.mpr ⟨Finset.mem_univ f, ?_⟩, rfl⟩
    simp only [isSet, bne_iff_ne]
    rwa [BasicFlag.value_eq_two_pow, and_two_pow_ne_zero]

/-! ## The calculation flags as independent options -/

/-- C2: each of the seventeen basic flag values of the header is a single bit
(a power of two) and two different basic flags have bitwise AND 0; so the OR
of a set `A` of basic flags equals the OR of a set `B` exactly when `A = B`,
and `(OR of A) AND f` is non-zero exactly when `f` is in `A`. -/
theorem basic_flags_independent :
    Fintype.card BasicFlag = 17 ∧
    (∀ f : BasicFlag, ∃ k : Nat, f.value = 2 ^ k) ∧
    (∀ f g : BasicFlag, f ≠ g → f.value &&& g.value = 0) ∧
    (∀ A B : Finset BasicFlag, orOf A = orOf B ↔ A = B) ∧
    (∀ (A : Finset BasicFlag) (f : BasicFlag), orOf A &&& f.value ≠ 0 ↔ f ∈ A) := by
  refine ⟨by decide, fun f => ⟨f.position, f.value_eq_two_pow⟩, by decide, ?_, ?_⟩
  · intro A B
    exact ⟨orOf_injective, fun h => by rw [h]⟩
  · exact orOf_and_value_ne_zero

/-- C9: `SEFLG_NOGDEFL` (512) and `SEFLG_NOABERR` (1024) are distinct single
bits, `SEFLG_ASTROMETRIC` is their OR, 1536, it shares no bit with any of the
other fifteen basic flags, and a mask `m` contains all of `SEFLG_ASTROMETRIC`
exactly when both the NOGDEFL bit and the NOABERR bit are set in `m`.  Each of
the two bits can be toggled in a mask without changing the test of the other. -/
theorem astrometric_is_noaberr_or_nogdefl :
    SEFLG_NOGDEFL = 512 ∧ SEFLG_NOABERR = 1024 ∧
    SEFLG_NOGDEFL = 2 ^ 9 ∧ SEFLG_NOABERR = 2 ^ 10 ∧
    SEFLG_NOGDEFL ≠ SEFLG_NOABERR ∧
    SEFLG_ASTROMETRIC = SEFLG_NOABERR ||| SEFLG_NOGDEFL ∧
    SEFLG_ASTROMETRIC = 1536 ∧
    (∀ f : BasicFlag, f ≠ BasicFlag.NOGDEFL → f ≠ BasicFlag.NOABERR →
      SEFLG_ASTROMETRIC &&& f.value = 0) ∧
    (∀ m : Nat, m &&& SEFLG_ASTROMETRIC = SEFLG_ASTROMETRIC ↔
      (m &&& SEFLG_NOGDEFL ≠ 0 ∧ m &&& SEFLG_NOABERR ≠ 0)) ∧
    (∀ m : Nat, isSet (m ^^^ SEFLG_NOGDEFL) SEFLG_NOABERR = isSet m SEFLG_NOABERR ∧
      isSet (m ^^^ SEFLG_NOGDEFL) SEFLG_NOGDEFL = !isSet m SEFLG_NOGDEFL) ∧
    (∀ m : Nat, isSet (m ^^^ SEFLG_NOABERR) SEFLG_NOGDEFL = isSet m SEFLG_NOGDEFL ∧
      isSet (m ^^^ SEFLG_NOABERR) SEFLG_NOABERR = !isSet m SEFLG_NOABERR) := by
  have hg : SEFLG_NOGDEFL = 2 ^ 9 := rfl
  have ha : SEFLG_NOABERR = 2 ^ 10 := rfl
  have hset : ∀ m k : Nat, isSet m (2 ^ k) = m.testBit k := by
    intro m k
    rw [Bool.eq_iff_iff]
    simp only [isSet, bne_iff_ne]
    exact and_two_pow_ne_zero m k
  refine ⟨rfl, rfl, hg, ha, by decide, rfl, by decide, by decide, ?_, ?_, ?_⟩
  · intro m
    rw [and_two_pow_ne_zero_iff_of_eq m hg, and_two_pow_ne_zero_iff_of_eq m ha]
    unfold SEFLG_ASTROMETRIC
    rw [Nat.and_or_distrib_left, ha, hg, Nat.and_two_pow, Nat.and_two_pow]
    cases m.testBit 9 <;> cases m.testBit 10 <;> decide
  · intro m
    rw [hg, ha, hset, hset, hset, hset, Nat.testBit_xor, Nat.testBit_xor,
      Nat.testBit_two_pow, Nat.testBit_two_pow]
    cases m.testBit 9 <;> cases m.testBit 10 <;> decide
  · intro m
    rw [hg, ha, hset, hset, hset, hset, Nat.testBit_xor, Nat.testBit_xor,
      Nat.testBit_two_pow, Nat.testBit_two_pow]
    cases m.testBit 9 <;> cases m.testBit 10 <;> decide

/-- C10: the seventeen basic flag values are, in header order, the powers of
two `2^0` to `2^16`, written `1, 2, 4, ..., 1024, 2*1024, ..., 64*1024`, with
no gap and no repeat; the OR of all of them is `131071 = 2^17 - 1`, every
integer below `2^17` is the OR of exactly one set of basic flags, and every
combination of flags is below `2^31`, the range of a signed 32-bit `int`. -/
theorem basic_flags_are_bits_0_to_16 :
    basicFlagValues = (List.range 17).map (fun k => 2 ^ k) ∧
    basicFlagValues = [1, 2, 4, 8, 16, 32, 64, 128, 256, 512, 1024, 2 * 1024,
      4 * 1024, 8 * 1024, 16 * 1024, 32 * 1024, 64 * 1024] ∧
    BasicFlag.all.Nodup ∧ (∀ f : BasicFlag, f ∈ BasicFlag.all) ∧
    basicFlagValues.Nodup ∧
    orOf Finset.univ = 131071 ∧ 131071 = 2 ^ 17 - 1 ∧
    (∀ n : Nat, n < 2 ^ 17 → ∃! A : Finset BasicFlag, orOf A = n) ∧
    (∀ A : Finset BasicFlag, orOf A < 2 ^ 17) ∧
    (∀ A : Finset BasicFlag, orOf A ≤ 2 ^ 31 - 1) ∧
    SEFLG_ASTROMETRIC ≤ 2 ^ 31 - 1 := by
  refine ⟨by decide, by decide, by decide, by decide, by decide, by decide, by decide,
    ?_, orOf_lt, ?_, by decide⟩
  · intro n hn
    refine ⟨Finset.univ.filter fun f : BasicFlag => isSet n f.value = true,
      orOf_filter_isSet n hn, ?_⟩
    intro B hB
    exact orOf_injective (hB.trans (orOf_filter_isSet n hn).symm)
  · intro A
    have := orOf_lt A
    omega

/-! ## The header after comment removal -/

/-- C1: the header contains no functional logic.  One block comment runs from
line 14 to line 82 (the only other one is the remark after `#endif` on line
87), and each of the 54 lines that define an `SEFLG_` or `SE_` name or import
`swephexp.h` lies strictly inside it.  After comment removal the only
directives left are the include guard `#ifndef` / `#define` / `#endif`, the
only macro defined is the guard itself with an empty replacement, and no other
text is left: the header offers no constant, function or type. -/
theorem header_has_no_functional_logic :
    headerLines.length = 87 ∧
    headerLines.get? 13 = some "/*" ∧ headerLines.get? 81 = some "*/" ∧
    ('\x5c' ∉ headerText ∧ '?' ∉ headerText) ∧
    (scan headerText).lex = Lex.code ∧
    blockComments headerText = [(14, 82), (87, 87)] ∧
    constantLineNumbers.length = 54 ∧
    (∀ n ∈ constantLineNumbers, 14 < n ∧ n < 82) ∧
    directives headerText =
      [["#ifndef", "Astrolog_Bridging_Header_h"],
       ["#define", "Astrolog_Bridging_Header_h"],
       ["#endif"]] ∧
    definedMacros headerText = [("Astrolog_Bridging_Header_h", [])] ∧
    declarations headerText = [] := by
  refine ⟨by decide!, by decide!, by decide!, by decide!, by decide!, by decide!,
    by decide!, by decide!, by decide!, by decide!, by decide!⟩

/-! ## The enumerations of bodies, house systems and angular points -/

/-- C3: the header's planet numbers name exactly seventeen bodies, with
`SE_ECL_NUT = -1`, Sun = 0, ..., Chiron = 15; the map from body to number is
injective and its image is exactly the integer interval `[-1, 15]`, so every
body has a number and every number of the interval names exactly one body. -/
theorem planet_numbers_enumerate_bodies :
    Fintype.card CelestialBody = 17 ∧
    CelestialBody.all.Nodup ∧ (∀ b : CelestialBody, b ∈ CelestialBody.all) ∧
    CelestialBody.all.map CelestialBody.number =
      [-1, 0, 1, 2, 3, 4, 5, 6, 7, 8, 9, 10, 11, 12, 13, 14, 15] ∧
    Function.Injective CelestialBody.number ∧
    (∀ n : Int, (∃ b : CelestialBody, b.number = n) ↔ (-1 ≤ n ∧ n ≤ 15)) ∧
    (∀ n : Int, -1 ≤ n → n ≤ 15 → ∃! b : CelestialBody, b.number = n) := by
  have hinj : Function.Injective CelestialBody.number := by
    intro a b
    revert a b
    decide
  have hsurj : ∀ n : Int, -1 ≤ n → n ≤ 15 → ∃ b : CelestialBody, b.number = n := by
    intro n h1 h2
    interval_cases n <;> decide
  refine ⟨by decide, by decide, by decide, by decide, hinj, ?_, ?_⟩
  · intro n
    constructor
    · rintro ⟨b, rfl⟩
      revert b
      decide
    · rintro ⟨h1, h2⟩
      exact hsurj n h1 h2
  · intro n h1 h2
    obtain ⟨b, hb⟩ := hsurj n h1 h2
    exact ⟨b, hb, fun c hc => hinj (hc.trans hb.symm)⟩

/-- C4: the header names exactly eight house systems with the codes `P`, `K`,
`O`, `R`, `C`, `A`, `V`, `W`, which are pairwise distinct; decoding a
character inverts the encoding on each of the eight systems and yields no
system for any other character. -/
theorem house_codes_decode :
    Fintype.card HouseSystem = 8 ∧
    HouseSystem.all.Nodup ∧ (∀ h : HouseSystem, h ∈ HouseSystem.all) ∧
    HouseSystem.all.map HouseSystem.code = ['P', 'K', 'O', 'R', 'C', 'A', 'V', 'W'] ∧
    (HouseSystem.all.map HouseSystem.code).Nodup ∧
    Function.Injective HouseSystem.code ∧
    (∀ h : HouseSystem, HouseSystem.ofCode h.code = some h) ∧
    (∀ (c : Char) (h : HouseSystem), HouseSystem.ofCode c = some h ↔ h.code = c) ∧
    (∀ c : Char, (∀ h : HouseSystem, h.code ≠ c) → HouseSystem.ofCode c = none) := by
  have hinj : Function.Injective HouseSystem.code := by
    intro a b
    revert a b
    decide
  have hround : ∀ h : HouseSystem, HouseSystem.ofCode h.code = some h := by decide
  have hsome : ∀ (c : Char) (h : HouseSystem), HouseSystem.ofCode c = some h → h.code = c := by
    intro c h hc
    have := List.find?_some hc
    simpa using this
  refine ⟨by decide, by decide, by decide, by decide, by decide, hinj, hround, ?_, ?_⟩
  · intro c h
    constructor
    · exact hsome c h
    · rintro rfl
      exact hround h
  · intro c hc
    cases hfind : HouseSystem.ofCode c with
    | none => rfl
    | some h => exact absurd (hsome c h hfind) (hc h)

/-- C5: the header's `ascmc` indexes `SE_ASC`, `SE_MC`, `SE_ARMC`,
`SE_VERTEX`, `SE_EQUASC`, `SE_COASC1`, `SE_COASC2`, `SE_POLASC` are, in that
order, 0 to 7; the map from angular point to index is a bijection onto the
indexes below 8, so each index is in bounds for an 8-element `ascmc` array and
names exactly one point. -/
theorem ascmc_indexes_enumerate_points :
    [SE_ASC, SE_MC, SE_ARMC, SE_VERTEX, SE_EQUASC, SE_COASC1, SE_COASC2, SE_POLASC] =
      [0, 1, 2, 3, 4, 5, 6, 7] ∧
    Fintype.card AngularPoint = 8 ∧
    AngularPoint.all.Nodup ∧ (∀ p : AngularPoint, p ∈ AngularPoint.all) ∧
    AngularPoint.all.map AngularPoint.index = List.range 8 ∧
    Function.Injective AngularPoint.index ∧
    (∀ n : Nat, (∃ p : AngularPoint, p.index = n) ↔ n < 8) ∧
    (∀ n : Nat, n < 8 → ∃! p : AngularPoint, p.index = n) ∧
    (∀ (ascmc : Array Rat) (p : AngularPoint), ascmc.size = 8 →
      (ascmc.get? p.index).isSome = true) := by
  have hinj : Function.Injective AngularPoint.index := by
    intro a b
    revert a b
    decide
  have hsurj : ∀ n : Nat, n < 8 → ∃ p : AngularPoint, p.index = n := by decide
  have hlt : ∀ p : AngularPoint, p.index < 8 := by decide
  refine ⟨by decide, by decide, by decide, by decide, by decide, hinj, ?_, ?_, ?_⟩
  · intro n
    constructor
    · rintro ⟨p, rfl⟩
      exact hlt p
    · exact hsurj n
  · intro n hn
    obtain ⟨p, hp⟩ := hsurj n hn
    exact ⟨p, hp, fun q hq => hinj (hq.trans hp.symm)⟩
  · intro ascmc p hsize
    have hp : p.index < ascmc.size := by
      rw [hsize]
      exact hlt p
    rw [Array.get?_eq_getElem?, Array.getElem?_eq_getElem hp]
    rfl

/-! ## Mutually exclusive options are rejected at construction -/

theorem CalculationFlags.not_heliocentric_with_reference (cf : CalculationFlags) :
    ¬ (cf.options.center = Center.Heliocentric ∧ cf.options.reference.isSome = true) := by
  rintro ⟨hc, hr⟩
  have hv := cf.valid
  simp [FlagOptions.exclusive, hc, hr] at hv

theorem CalculationFlags.make_eq_error_iff (o : FlagOptions) :
    CalculationFlags.make o = Except.error EngineError.InvalidFlagCombination ↔
      o.exclusive = true := by
  unfold CalculationFlags.make
  split_ifs with h
  · simp [h]
  · simpa using h

theorem CalculationFlags.make_error (o : FlagOptions) (e : EngineError)
    (h : CalculationFlags.make o = Except.error e) :
    e = EngineError.InvalidFlagCombination := by
  unfold CalculationFlags.make at h
  split_ifs at h
  simp only [Except.error.injEq] at h
  exact h.symm

theorem CalculationFlags.make_ok_options (o : FlagOptions) (cf : CalculationFlags)
    (h : CalculationFlags.make o = Except.ok cf) : cf.options = o := by
  unfold CalculationFlags.make at h
  split_ifs at h with hv
  simp only [Except.ok.injEq] at h
  rw [← h]

theorem tierOfFlags_ok (A : Finset BasicFlag) (t : Option EphemerisTier)
    (h : tierOfFlags A = Except.ok t) :
    (t == some EphemerisTier.Jpl) = decide (BasicFlag.JPLEPH ∈ A) ∧
    (t == some EphemerisTier.Swiss) = decide (BasicFlag.SWIEPH ∈ A) ∧
    (t == some EphemerisTier.Moshier) = decide (BasicFlag.MOSEPH ∈ A) := by
  unfold tierOfFlags at h
  cases hj : decide (BasicFlag.JPLEPH ∈ A) <;> cases hs : decide (BasicFlag.SWIEPH ∈ A) <;>
    cases hm : decide (BasicFlag.MOSEPH ∈ A) <;> simp only [hj, hs, hm] at h <;>
    (cases h <;> decide)

theorem referenceOfFlags_ok (A : Finset BasicFlag) (r : Option Reference)
    (h : referenceOfFlags A = Except.ok r) :
    (r == some Reference.Barycentric) = decide (BasicFlag.BARYCTR ∈ A) ∧
    (r == some Reference.Topocentric) = decide (BasicFlag.TOPOCTR ∈ A) := by
  unfold referenceOfFlags at h
  cases hb : decide (BasicFlag.BARYCTR ∈ A) <;> cases ht : decide (BasicFlag.TOPOCTR ∈ A) <;>
    simp only [hb, ht] at h <;>
    (cases h <;> decide)

/-- A successful construction from requested options selects exactly the
options that were asked for. -/
theorem CalculationFlags.ofFlags_ok_selects (A : Finset BasicFlag) (cf : CalculationFlags)
    (h : CalculationFlags.ofFlags A = Except.ok cf) (f : BasicFlag) :
    cf.selects f = decide (f ∈ A) := by
  unfold CalculationFlags.ofFlags at h
  split at h
  · rename_i t r ht hr
    have ho := CalculationFlags.make_ok_options _ cf h
    obtain ⟨hj, hs, hm⟩ := tierOfFlags_ok A t ht
    obtain ⟨hb, hp⟩ := referenceOfFlags_ok A r hr
    unfold CalculationFlags.selects
    rw [ho]
    cases f <;> simp only [FlagOptions.selects, hj, hs, hm, hb, hp]
    by_cases hh : BasicFlag.HELCTR ∈ A <;> simp [hh]
  · cases h

theorem CalculationFlags.ofFlags_error (A : Finset BasicFlag) (e : EngineError)
    (h : CalculationFlags.ofFlags A = Except.error e) :
    e = EngineError.InvalidFlagCombination := by
  unfold CalculationFlags.ofFlags at h
  split at h
  · exact CalculationFlags.make_error _ e h
  · simp only [Except.error.injEq] at h
    exact h.symm

theorem CalculationFlags.ofFlags_conflicting (A : Finset BasicFlag)
    (h : conflicting A = true) :
    CalculationFlags.ofFlags A = Except.error EngineError.InvalidFlagCombination := by
  cases hres : CalculationFlags.ofFlags A with
  | error e => rw [CalculationFlags.ofFlags_error A e hres]
  | ok cf =>
    exfalso
    have hsel := CalculationFlags.ofFlags_ok_selects A cf hres
    have hv := cf.valid
    have hJ := hsel BasicFlag.JPLEPH
    have hS := hsel BasicFlag.SWIEPH
    have hM := hsel BasicFlag.MOSEPH
    have hH := hsel BasicFlag.HELCTR
    have hB := hsel BasicFlag.BARYCTR
    have hT := hsel BasicFlag.TOPOCTR
    simp only [CalculationFlags.selects, FlagOptions.selects] at hJ hS hM hH hB hT
    rw [conflicting, ← hJ, ← hS, ← hM, ← hH, ← hB, ← hT] at h
    unfold FlagOptions.exclusive at hv
    revert h hv
    generalize cf.options.tier = t
    generalize cf.options.center = c
    generalize cf.options.reference = r
    revert t c r
    decide

theorem CalculationFlags.ofFlags_not_conflicting (A : Finset BasicFlag)
    (h : conflicting A = false) :
    ∃ cf : CalculationFlags, CalculationFlags.ofFlags A = Except.ok cf := by
  unfold conflicting at h
  unfold CalculationFlags.ofFlags tierOfFlags referenceOfFlags CalculationFlags.make
  cases hj : decide (BasicFlag.JPLEPH ∈ A) <;> cases hs : decide (BasicFlag.SWIEPH ∈ A) <;>
    cases hm : decide (BasicFlag.MOSEPH ∈ A) <;> cases hb : decide (BasicFlag.BARYCTR ∈ A) <;>
    cases ht : decide (BasicFlag.TOPOCTR ∈ A) <;> cases hh : decide (BasicFlag.HELCTR ∈ A) <;>
    simp only [hj, hs, hm, hb, ht, hh] at h <;>
    first
    | (exact absurd h (by decide))
    | (simp only [decide_eq_true_eq, decide_eq_false_iff_not] at hh
       simp [FlagOptions.exclusive, hh])

theorem CalculationFlags.not_selects_helctr_with (cf : CalculationFlags) :
    ¬ (cf.selects BasicFlag.HELCTR = true ∧ cf.selects BasicFlag.TOPOCTR = true) ∧
    ¬ (cf.selects BasicFlag.HELCTR = true ∧ cf.selects BasicFlag.BARYCTR = true) := by
  have hv := cf.not_heliocentric_with_reference
  simp only [CalculationFlags.selects, FlagOptions.selects, beq_iff_eq]
  constructor
  · rintro ⟨hc, hr⟩
    exact hv ⟨hc, by rw [hr]; rfl⟩
  · rintro ⟨hc, hr⟩
    exact hv ⟨hc, by rw [hr]; rfl⟩

theorem CalculationFlags.one_tier (cf : CalculationFlags) :
    ¬ (cf.selects BasicFlag.JPLEPH = true ∧ cf.selects BasicFlag.SWIEPH = true) ∧
    ¬ (cf.selects BasicFlag.JPLEPH = true ∧ cf.selects BasicFlag.MOSEPH = true) ∧
    ¬ (cf.selects BasicFlag.SWIEPH = true ∧ cf.selects BasicFlag.MOSEPH = true) := by
  simp only [CalculationFlags.selects, FlagOptions.selects, beq_iff_eq]
  refine ⟨?_, ?_, ?_⟩ <;>
  · rintro ⟨h1, h2⟩
    rw [h1] at h2
    exact absurd h2 (by decide)

theorem CalculationFlags.isSet_toMask (cf : CalculationFlags) (f : BasicFlag) :
    isSet cf.toMask f.value = cf.selects f := by
  rw [Bool.eq_iff_iff]
  simp only [isSet, bne_iff_ne, CalculationFlags.toMask]
  rw [orOf_and_value_ne_zero, Finset.mem_filter]
  simp

theorem CalculationFlags.toMask_ofFlags (A : Finset BasicFlag) (cf : CalculationFlags)
    (h : CalculationFlags.ofFlags A = Except.ok cf) : cf.toMask = orOf A := by
  unfold CalculationFlags.toMask
  congr 1
  ext f
  rw [Finset.mem_filter, CalculationFlags.ofFlags_ok_selects A cf h f]
  simp

/-- C6: mutually exclusive calculation options are rejected at construction
and never silently combined.  No `CalculationFlags` value selects heliocentric
together with topocentric, nor heliocentric together with barycentric, nor
more than one ephemeris tier.  Construction from a record of options, and from
a set of requested options, fails with `InvalidFlagCombination` exactly on the
exclusive combinations, and on success the value selects exactly what was
asked for.  The flags are a structured object and not a bitmask: as a plain
mask `SEFLG_HELCTR | SEFLG_TOPOCTR` is the ordinary value 32776 with both bits
set, but no `CalculationFlags` value has a mask with both bits set. -/
theorem exclusive_options_rejected_at_construction :
    (∀ cf : CalculationFlags,
      ¬ (cf.selects BasicFlag.HELCTR = true ∧ cf.selects BasicFlag.TOPOCTR = true)) ∧
    (∀ cf : CalculationFlags,
      ¬ (cf.selects BasicFlag.HELCTR = true ∧ cf.selects BasicFlag.BARYCTR = true)) ∧
    (∀ cf : CalculationFlags,
      ¬ (cf.selects BasicFlag.JPLEPH = true ∧ cf.selects BasicFlag.SWIEPH = true) ∧
      ¬ (cf.selects BasicFlag.JPLEPH = true ∧ cf.selects BasicFlag.MOSEPH = true) ∧
      ¬ (cf.selects BasicFlag.SWIEPH = true ∧ cf.selects BasicFlag.MOSEPH = true)) ∧
    (∀ o : FlagOptions, o.center = Center.Heliocentric →
      (o.reference = some Reference.Topocentric ∨ o.reference = some Reference.Barycentric) →
      CalculationFlags.make o = Except.error EngineError.InvalidFlagCombination) ∧
    (∀ o : FlagOptions,
      CalculationFlags.make o = Except.error EngineError.InvalidFlagCombination ↔
        o.exclusive = true) ∧
    (∀ (o : FlagOptions) (cf : CalculationFlags),
      CalculationFlags.make o = Except.ok cf → cf.options = o) ∧
    (∀ A : Finset BasicFlag, BasicFlag.HELCTR ∈ A → BasicFlag.TOPOCTR ∈ A →
      CalculationFlags.ofFlags A = Except.error EngineError.InvalidFlagCombination) ∧
    (∀ A : Finset BasicFlag, BasicFlag.HELCTR ∈ A → BasicFlag.BARYCTR ∈ A →
      CalculationFlags.ofFlags A = Except.error EngineError.InvalidFlagCombination) ∧
    (∀ A : Finset BasicFlag,
      (BasicFlag.JPLEPH ∈ A ∧ BasicFlag.SWIEPH ∈ A) ∨ (BasicFlag.JPLEPH ∈ A ∧ BasicFlag.MOSEPH ∈ A)
        ∨ (BasicFlag.SWIEPH ∈ A ∧ BasicFlag.MOSEPH ∈ A) →
      CalculationFlags.ofFlags A = Except.error EngineError.InvalidFlagCombination) ∧
    (∀ A : Finset BasicFlag,
      CalculationFlags.ofFlags A = Except.error EngineError.InvalidFlagCombination ↔
        conflicting A = true) ∧
    (∀ A : Finset BasicFlag, conflicting A = false →
      ∃ cf : CalculationFlags, CalculationFlags.ofFlags A = Except.ok cf) ∧
    (∀ (A : Finset BasicFlag) (cf : CalculationFlags),
      CalculationFlags.ofFlags A = Except.ok cf →
        (∀ f : BasicFlag, cf.selects f = true ↔ f ∈ A) ∧ cf.toMask = orOf A) ∧
    (SEFLG_HELCTR ||| SEFLG_TOPOCTR = 32776 ∧ isSet 32776 SEFLG_HELCTR = true ∧
      isSet 32776 SEFLG_TOPOCTR = true) ∧
    (∀ cf : CalculationFlags,
      ¬ (isSet cf.toMask SEFLG_HELCTR = true ∧ isSet cf.toMask SEFLG_TOPOCTR = true)) ∧
    (∀ cf : CalculationFlags, cf.toMask ≠ SEFLG_HELCTR ||| SEFLG_TOPOCTR) ∧
    (∃ cf : CalculationFlags,
      CalculationFlags.ofFlags {BasicFlag.SWIEPH, BasicFlag.HELCTR, BasicFlag.SPEED}
        = Except.ok cf ∧ cf.toMask = 266) := by
  have hmask : ∀ cf : CalculationFlags,
      ¬ (isSet cf.toMask SEFLG_HELCTR = true ∧ isSet cf.toMask SEFLG_TOPOCTR = true) := by
    intro cf
    have h1 : isSet cf.toMask SEFLG_HELCTR = cf.selects BasicFlag.HELCTR :=
      cf.isSet_toMask BasicFlag.HELCTR
    have h2 : isSet cf.toMask SEFLG_TOPOCTR = cf.selects BasicFlag.TOPOCTR :=
      cf.isSet_toMask BasicFlag.TOPOCTR
    rw [h1, h2]
    exact cf.not_selects_helctr_with.1
  have hconf : ∀ A : Finset BasicFlag, conflicting A = true →
      CalculationFlags.ofFlags A = Except.error EngineError.InvalidFlagCombination :=
    CalculationFlags.ofFlags_conflicting
  refine ⟨fun cf => cf.not_selects_helctr_with.1, fun cf => cf.not_selects_helctr_with.2,
    fun cf => cf.one_tier, ?_, CalculationFlags.make_eq_error_iff,
    CalculationFlags.make_ok_options, ?_, ?_, ?_, ?_,
    CalculationFlags.ofFlags_not_conflicting, ?_, by decide, hmask, ?_, ?_⟩
  · intro o hc hr
    rw [CalculationFlags.make_eq_error_iff]
    rcases hr with hr | hr <;> simp [FlagOptions.exclusive, hc, hr]
  · intro A hh ht
    apply hconf
    simp [conflicting, hh, ht]
  · intro A hh hb
    apply hconf
    simp [conflicting, hh, hb]
  · intro A h
    apply hconf
    rcases h with ⟨h1, h2⟩ | ⟨h1, h2⟩ | ⟨h1, h2⟩ <;> simp [conflicting, h1, h2]
  · intro A
    constructor
    · intro herr
      by_contra hc
      rw [Bool.not_eq_true] at hc
      obtain ⟨cf, hok⟩ := CalculationFlags.ofFlags_not_conflicting A hc
      rw [herr] at hok
      cases hok
    · exact hconf A
  · intro A cf h
    refine ⟨fun f => ?_, CalculationFlags.toMask_ofFlags A cf h⟩
    rw [CalculationFlags.ofFlags_ok_selects A cf h f]
    simp
  · intro cf heq
    apply hmask cf
    rw [heq]
    decide
  · obtain ⟨cf, hcf⟩ := CalculationFlags.ofFlags_not_conflicting
      {BasicFlag.SWIEPH, BasicFlag.HELCTR, BasicFlag.SPEED} (by decide)
    refine ⟨cf, hcf, ?_⟩
    rw [CalculationFlags.toMask_ofFlags _ cf hcf]
    decide

/-! ## Time normaliser -/

theorem daysInMonth_february_le (k : CalendarKind) (y : Int) : daysInMonth k y 2 ≤ 29 := by
  unfold daysInMonth
  split_ifs <;> omega

/-- C7: `normalize` fails with `InvalidDate` exactly on the civil dates that
do not exist under the given calendar kind, and returns the astronomical time
on the others; in particular 30 February under the Gregorian calendar kind
(`SE_GREG_CAL`) is rejected with `InvalidDate` for every year, time of day and
UTC offset. -/
theorem normalize_rejects_nonexistent_dates
    (toAstronomical : CivilTimestamp → CalendarKind → Rat) :
    (∀ (ts : CivilTimestamp) (k : CalendarKind),
      dateExists k ts.year ts.month ts.day = false →
        normalize toAstronomical ts k = Except.error EngineError.InvalidDate) ∧
    (∀ (ts : CivilTimestamp) (k : CalendarKind),
      dateExists k ts.year ts.month ts.day = true →
        normalize toAstronomical ts k = Except.ok (toAstronomical ts k)) ∧
    CalendarKind.Gregorian.code = SE_GREG_CAL ∧
    (∀ y : Int, dateExists CalendarKind.Gregorian y 2 30 = false) ∧
    (∀ (y : Int) (s o : Rat),
      normalize toAstronomical
          { year := y, month := 2, day := 30, secondOfDay := s, utcOffset := o }
          CalendarKind.Gregorian
        = Except.error EngineError.InvalidDate) := by
  have hfeb : ∀ y : Int, dateExists CalendarKind.Gregorian y 2 30 = false := by
    intro y
    have h := daysInMonth_february_le CalendarKind.Gregorian y
    have h30 : ¬ (30 ≤ daysInMonth CalendarKind.Gregorian y 2) := by omega
    simp [dateExists, h30]
  refine ⟨?_, ?_, rfl, hfeb, ?_⟩
  · intro ts k h
    simp [normalize, h]
  · intro ts k h
    simp [normalize, h]
  · intro y s o
    simp [normalize, hfeb y]

/-! ## Whole-Sign houses -/

theorem wrap360_add_int (x : Rat) (k : Int) : wrap360 (x + 360 * k) = wrap360 x := by
  unfold wrap360
  have h : (x + 360 * (k : Rat)) / 360 = x / 360 + k := by ring
  rw [h, Int.floor_add_int]
  push_cast
  ring

theorem wrap360_nonneg (x : Rat) : 0 ≤ wrap360 x := by
  unfold wrap360
  have h := Int.floor_le (x / 360)
  linarith

theorem wrap360_lt (x : Rat) : wrap360 x < 360 := by
  unfold wrap360
  have h := Int.lt_floor_add_one (x / 360)
  linarith

theorem wrap360_of_mem (x : Rat) (h0 : 0 ≤ x) (h1 : x < 360) : wrap360 x = x := by
  unfold wrap360
  have hf : ⌊x / 360⌋ = 0 := by
    rw [Int.floor_eq_iff]
    constructor
    · simp only [Int.cast_zero]
      positivity
    · simp only [Int.cast_zero, zero_add]
      linarith
  rw [hf]
  simp

theorem wrap360_sub_wrap360 (a b : Rat) :
    wrap360 (wrap360 a - wrap360 b) = wrap360 (a - b) := by
  have h : wrap360 a - wrap360 b = (a - b) + 360 * ((⌊b / 360⌋ - ⌊a / 360⌋ : Int) : Rat) := by
    unfold wrap360
    push_cast
    ring
  rw [h, wrap360_add_int]

theorem wholeSignCusps_getD (asc : Rat) (i : Nat) (hi : i < 12) :
    (wholeSignCusps asc).getD i 0 = wrap360 (30 * ⌊asc / 30⌋ + 30 * i) := by
  unfold wholeSignCusps
  interval_cases i <;> simp [List.range_succ]

/-- C8: when `computeHouses` succeeds with the Whole-Sign system, there are
twelve cusps, each cusp is exactly 30 degrees after the one before it modulo
360 (the first after the twelfth), and the first cusp is the start of the
30-degree sign that contains the Ascendant: the largest multiple of 30 that
does not exceed the Ascendant's longitude. -/
theorem whole_sign_cusps_thirty_apart (M : HouseModel) (t : Rat) (loc : GeoLocation)
    (hc : HouseCusps)
    (h : computeHouses M t loc HouseSystem.WholeSign = Except.ok hc) :
    HouseSystem.WholeSign.code = SE_HS_WHOLE_SIGN ∧
    hc.cusps.length = 12 ∧
    (∀ i : Nat, i < 12 →
      wrap360 (hc.cusps.getD ((i + 1) % 12) 0 - hc.cusps.getD i 0) = 30) ∧
    hc.cusps.getD 0 0 = 30 * ⌊hc.ascmc AngularPoint.Asc / 30⌋ ∧
    hc.cusps.getD 0 0 ≤ hc.ascmc AngularPoint.Asc ∧
    (∀ k : Int, (30 * k : Rat) ≤ hc.ascmc AngularPoint.Asc → (30 * k : Rat) ≤ hc.cusps.getD 0 0) := by
  simp only [computeHouses, Except.ok.injEq] at h
  subst h
  simp only
  set asc := wrap360 (M.angles t loc AngularPoint.Asc) with hasc
  have h0 : 0 ≤ asc := wrap360_nonneg _
  have h1 : asc < 360 := wrap360_lt _
  have hfl : (⌊asc / 30⌋ : Rat) ≤ asc / 30 := Int.floor_le _
  have hfu : asc / 30 < ⌊asc / 30⌋ + 1 := Int.lt_floor_add_one _
  have hfirst : (wholeSignCusps asc).getD 0 0 = 30 * ⌊asc / 30⌋ := by
    rw [wholeSignCusps_getD asc 0 (by norm_num)]
    have hk0 : (0 : Int) ≤ ⌊asc / 30⌋ := Int.floor_nonneg.mpr (by positivity)
    have hk0q : (0 : Rat) ≤ ⌊asc / 30⌋ := by exact_mod_cast hk0
    rw [wrap360_of_mem]
    · simp
    · simp only [Nat.cast_zero, mul_zero, add_zero]
      linarith
    · simp only [Nat.cast_zero, mul_zero, add_zero]
      linarith
  refine ⟨rfl, ?_, ?_, hfirst, ?_, ?_⟩
  · unfold wholeSignCusps
    rw [List.length_map, List.length_range]
  · intro i hi
    rw [wholeSignCusps_getD asc i hi, wholeSignCusps_getD asc _ (Nat.mod_lt _ (by norm_num)),
      wrap360_sub_wrap360]
    by_cases h11 : i = 11
    · subst h11
      have : (30 * (⌊asc / 30⌋ : Rat) + 30 * ((11 + 1) % 12 : Nat) - (30 * ⌊asc / 30⌋ + 30 * (11 : Nat)))
          = 30 + 360 * ((-1 : Int) : Rat) := by
        norm_num
      rw [this, wrap360_add_int]
      exact wrap360_of_mem 30 (by norm_num) (by norm_num)
    · have hmod : (i + 1) % 12 = i + 1 := Nat.mod_eq_of_lt (by omega)
      rw [hmod]
      have : (30 * (⌊asc / 30⌋ : Rat) + 30 * ((i + 1 : Nat) : Rat) - (30 * ⌊asc / 30⌋ + 30 * (i : Rat)))
          = 30 := by
        push_cast
        ring
      rw [this]
      exact wrap360_of_mem 30 (by norm_num) (by norm_num)
  · rw [hfirst]
    linarith
  · intro k hk
    rw [hfirst]
    have hk2 : (k : Rat) ≤ asc / 30 := by linarith
    have hk3 : k ≤ ⌊asc / 30⌋ := Int.le_floor.mpr hk2
    have hk4 : (k : Rat) ≤ ⌊asc / 30⌋ := by exact_mod_cast hk3
    linarith

/-- C8 at a concrete input: with the Ascendant at 95 degrees `computeHouses`
succeeds for Whole-Sign, the cusps run 90, 120, ..., 330, 0, 30, 60, and the
first cusp 90 is the start of the sign that holds the Ascendant. -/
theorem whole_sign_cusps_thirty_apart_witness :
    computeHouses sampleModel 2451545 sampleLocation HouseSystem.WholeSign
      = Except.ok sampleCusps ∧
    sampleCusps.cusps = [90, 120, 150, 180, 210, 240, 270, 300, 330, 0, 30, 60] ∧
    (HouseSystem.WholeSign.code = SE_HS_WHOLE_SIGN ∧
      sampleCusps.cusps.length = 12 ∧
      (∀ i : Nat, i < 12 →
        wrap360 (sampleCusps.cusps.getD ((i + 1) % 12) 0 - sampleCusps.cusps.getD i 0) = 30) ∧
      sampleCusps.cusps.getD 0 0 = 30 * ⌊sampleCusps.ascmc AngularPoint.Asc / 30⌋ ∧
      sampleCusps.cusps.getD 0 0 ≤ sampleCusps.ascmc AngularPoint.Asc ∧
      (∀ k : Int, (30 * k : Rat) ≤ sampleCusps.ascmc AngularPoint.Asc →
        (30 * k : Rat) ≤ sampleCusps.cusps.getD 0 0)) :=
  ⟨rfl, by decide!,
    whole_sign_cusps_thirty_apart sampleModel 2451545 sampleLocation sampleCusps rfl⟩

end Astrolog
